import Mathlib

/-! Verification of the FractionalNorm wake-combination strategy
(src/floris/simulation/wake_combination/fractional_norm.py).

Modelling conventions.  Python floats appearing as configuration values
are modelled as rationals (every IEEE double denotes a rational number);
flow-field entries are real numbers and the elementwise numpy power is
real exponentiation, so the defs touching it are noncomputable while the
configuration layer stays executable.  Elementwise numpy operations are
modelled for shape-matched operands; the spec makes shape matching the
responsibility of the caller.  Diagnostics emitted through the logging
collaborator are modelled as a list of diagnostic events.  A method of
the class is embedded as a function from the instance state (and the
arguments) to the post state, the exception outcome and the diagnostics,
because a Python attribute assignment persists even when the method
raises later. -/

/-- Kinds of Python exception raised by the modelled code paths. -/
inductive PyErr
  | valueError
  | typeError
  | indexError
  | attributeError
  deriving DecidableEq, Repr

/-- One diagnostic event sent to the logging collaborator: an advisory
(logger.info, deviation from a tuned default) or an error report
(logger.error, emitted just before a type rejection). -/
inductive Diag
  | advisory
  | errorReport
  deriving DecidableEq, Repr

/-- Python values that can reach the parameter layer of the strategy. -/
inductive PyVal
  | pyFloat (x : ℚ)
  | pyInt (n : ℤ)
  | pyStr (s : String)
  | npArray (xs : List ℚ)
  | pyNone
  deriving DecidableEq, Repr

/-- The rational denoted by the Python float literal 1.5, written in
normalised form so that kernel evaluation of comparisons succeeds. -/
def onePointFive : ℚ := ⟨3, 2, by decide, by decide⟩

/-- Sanity: the normalised literal is the rational three halves. -/
theorem onePointFive_eq : onePointFive = 3 / 2 := by
  unfold onePointFive
  rw [Rat.mk'_eq_divInt, Rat.divInt_eq_div]
  norm_num

/-- Result of a Python comparison as used by the setters: a plain bool, or
the elementwise bool array numpy produces when one operand is an array. -/
inductive CmpRes
  | b (v : Bool)
  | arr (vs : List Bool)
  deriving DecidableEq, Repr

/-- Models the comparison `value != default` of a parameter value against a
float default: numeric scalars compare by value, non-numeric scalars are
simply unequal, and a numpy array compares elementwise. -/
def pyNeFloat : PyVal → ℚ → CmpRes
  | .pyFloat x, q => .b (decide (x ≠ q))
  | .pyInt n, q => .b (decide ((n : ℚ) ≠ q))
  | .pyStr _, _ => .b true
  | .pyNone, _ => .b true
  | .npArray xs, q => .arr (xs.map fun x => decide (x ≠ q))

/-- Models Python truthiness of a comparison result inside an if
statement: a one-element bool array collapses to its element, an empty
bool array is falsy, and a multi-element bool array raises the numpy
ambiguous-truth-value ValueError. -/
def truthy : CmpRes → Except PyErr Bool
  | .b v => .ok v
  | .arr [] => .ok false
  | .arr [v] => .ok v
  | .arr (_ :: _ :: _) => .error .valueError

/-- State of a FractionalNorm instance: the variant identifier string and
the two stored parameters (absent before their first assignment). -/
structure FractionalNorm where
  model_string : String
  _norm_order : Option PyVal
  _wake_weight : Option PyVal
  deriving DecidableEq, Repr

/-- The tuned defaults of the strategy (class attribute default_parameters
of the source, with norm_order 1.5 and wake_weight 1.0). -/
def FractionalNorm.default_parameters : List (String × PyVal) :=
  [("norm_order", .pyFloat onePointFive), ("wake_weight", .pyFloat 1)]

/-- Outcome of a stateful method: the post state (attribute assignments
persist even past a later raise), the exception outcome, and the
diagnostics emitted during the call. -/
structure MethodResult where
  state : FractionalNorm
  exc : Except PyErr Unit
  logs : List Diag

/-- The norm_order property getter. -/
def FractionalNorm.norm_order (self : FractionalNorm) : Except PyErr PyVal :=
  match self._norm_order with
  | some v => .ok v
  | none => .error .attributeError

/-- The wake_weight property getter. -/
def FractionalNorm.wake_weight (self : FractionalNorm) : Except PyErr PyVal :=
  match self._wake_weight with
  | some v => .ok v
  | none => .error .attributeError

/-- The norm_order property setter: the type check present in the source is
commented out, so the value is stored unconditionally; then the tuned
default deviation check runs, whose truthiness test raises ValueError for
a multi-element numpy array and otherwise emits an advisory exactly when
the value differs from the default 1.5. -/
def norm_order_setter (self : FractionalNorm) (value : PyVal) : MethodResult :=
  let stored := { self with _norm_order := some value }
  match truthy (pyNeFloat value onePointFive) with
  | .error e => ⟨stored, .error e, []⟩
  | .ok true => ⟨stored, .ok (), [.advisory]⟩
  | .ok false => ⟨stored, .ok (), []⟩

/-- The wake_weight property setter: a value whose type is not float is
reported to the logger and rejected with ValueError before anything is
stored; a float is stored and then checked against the default 1.0,
emitting an advisory exactly on deviation. -/
def wake_weight_setter (self : FractionalNorm) (value : PyVal) : MethodResult :=
  match value with
  | .pyFloat x =>
    let stored := { self with _wake_weight := some (.pyFloat x) }
    match truthy (pyNeFloat (.pyFloat x) 1) with
    | .error e => ⟨stored, .error e, []⟩
    | .ok true => ⟨stored, .ok (), [.advisory]⟩
    | .ok false => ⟨stored, .ok (), []⟩
  | _ => ⟨self, .error .valueError, [.errorReport]⟩

/-- Modelled from the spec: the Parameter Resolver
(WakeCombination._get_model_dict, provided by the base class whose source
is not part of this file set) merges a caller-supplied incomplete
configuration into the declared defaults, preferring the caller value per
key and otherwise the default, without mutating the defaults. -/
def _get_model_dict (defaults : List (String × PyVal))
    (parameter_dictionary : List (String × PyVal)) : List (String × PyVal) :=
  defaults.map fun kv => (kv.1, (parameter_dictionary.lookup kv.1).getD kv.2)

/-- The FractionalNorm constructor: records the variant identifier,
resolves the parameters against the tuned defaults, and assigns them
through the two property setters in source order, stopping at the first
exception.  The resolver comes from the base class and is modelled from
the spec as _get_model_dict. -/
def FractionalNorm.init (parameter_dictionary : List (String × PyVal)) : MethodResult :=
  let self0 : FractionalNorm :=
    { model_string := "fracnorm", _norm_order := none, _wake_weight := none }
  let md := _get_model_dict FractionalNorm.default_parameters parameter_dictionary
  let r1 := norm_order_setter self0 ((md.lookup ("norm_order")).getD .pyNone)
  match r1.exc with
  | .error e => ⟨r1.state, .error e, r1.logs⟩
  | .ok _ =>
    let r2 := wake_weight_setter r1.state ((md.lookup ("wake_weight")).getD .pyNone)
    ⟨r2.state, r2.exc, r1.logs ++ r2.logs⟩

/-- A flow field: a two-dimensional numpy array of velocities, modelled as
a list of rows of real numbers. -/
abbrev FlowField := List (List ℝ)

/-- Two fields have the same shape: the same row count and matching row
lengths. -/
def sameShape (u v : FlowField) : Prop := u.map List.length = v.map List.length

/-- Elementwise combination of two shape-matched fields, as performed by
the numpy elementwise arithmetic of the source. -/
def zipWith2d (f : ℝ → ℝ → ℝ) (u v : FlowField) : FlowField :=
  List.zipWith (List.zipWith f) u v

/-- Python subscription value[index] for the operands reachable from the
function method: a numpy array indexes by integer (negative indexes count
from the end) and grows a length-one axis when indexed with None; a string
indexes by integer; numeric scalars and None are not subscriptable. -/
def getItem : PyVal → Option ℤ → Except PyErr PyVal
  | .npArray xs, some i =>
    let j : ℤ := if i < 0 then i + xs.length else i
    if h : 0 ≤ j ∧ j.toNat < xs.length then .ok (.pyFloat (xs.get ⟨j.toNat, h.2⟩))
    else .error .indexError
  | .npArray xs, none => .ok (.npArray xs)
  | .pyStr s, some i =>
    let cs := s.toList
    let j : ℤ := if i < 0 then i + cs.length else i
    if h : 0 ≤ j ∧ j.toNat < cs.length then .ok (.pyStr (String.mk [cs.get ⟨j.toNat, h.2⟩]))
    else .error .indexError
  | _, _ => .error .typeError

/-- The exponent operand accepted by the numpy power operators of the
formula: a numeric scalar, or a one-dimensional array broadcast along the
columns; any other operand raises TypeError in numpy. -/
inductive NormExp
  | scalar (q : ℚ)
  | arr (qs : List ℚ)
  deriving DecidableEq, Repr

/-- Coerces the subscripted norm order into a power-operator operand. -/
def toExponent : PyVal → Except PyErr NormExp
  | .pyFloat x => .ok (.scalar x)
  | .pyInt n => .ok (.scalar (n : ℚ))
  | .npArray xs => .ok (.arr xs)
  | _ => .error .typeError

/-- The exponent effective in one call of the function method: the stored
norm order read through its getter and subscripted by the turbine number. -/
def effExponent (self : FractionalNorm) (turbnum : Option ℤ) : Except PyErr NormExp :=
  match self.norm_order with
  | .error e => .error e
  | .ok nv =>
    match getItem nv turbnum with
    | .error e => .error e
    | .ok item => toExponent item

/-- One element of the fractional-norm combination with exponent p. -/
noncomputable def fracnormElt (p : ℝ) (b w : ℝ) : ℝ := (w ^ p + b ^ p) ^ (1 / p)

/-- Compatibility of two trailing dimensions under numpy broadcasting:
they are equal, or one of them is one. -/
def bcompat (a b : ℕ) : Prop := a = b ∨ a = 1 ∨ b = 1

instance (a b : ℕ) : Decidable (bcompat a b) :=
  inferInstanceAs (Decidable (a = b ∨ a = 1 ∨ b = 1))

/-- The width of the numpy broadcast of two compatible trailing
dimensions. -/
def bwidth (a b : ℕ) : ℕ := if a = 1 then b else a

/-- Index into an operand of width m at column j of a broadcast: a
length-one operand keeps repeating its only entry. -/
def bidx (m j : ℕ) : ℕ := if m = 1 then 0 else j

/-- One row of the combination when the exponent is a one-dimensional
array (the numpy shape produced by indexing the stored array with None):
both power operators and the addition broadcast along the columns, so the
exponent width and the two row widths must be pairwise compatible (equal
or one); the result row has the common broadcast width, which can exceed
the row widths when a length-one row meets a wider exponent array.  An
incompatible combination raises the numpy broadcast ValueError. -/
noncomputable def rowCombine (ps : List ℚ) (ru rv : List ℝ) : Except PyErr (List ℝ) :=
  if bcompat rv.length ps.length ∧ bcompat ru.length ps.length ∧
      bcompat (bwidth rv.length ps.length) (bwidth ru.length ps.length) then
    .ok ((List.range (bwidth (bwidth rv.length ps.length)
        (bwidth ru.length ps.length))).map fun j =>
      fracnormElt (ps[bidx ps.length j]! : ℝ)
        (ru[bidx ru.length j]!) (rv[bidx rv.length j]!))
  else .error .valueError

/-- All rows of the combination under a one-dimensional exponent array. -/
noncomputable def combineRows (ps : List ℚ) : FlowField → FlowField → Except PyErr FlowField
  | [], _ => .ok []
  | _ :: _, [] => .ok []
  | ru :: us, rv :: vs =>
    match rowCombine ps ru rv, combineRows ps us vs with
    | .ok r, .ok rest => .ok (r :: rest)
    | .error e, _ => .error e
    | .ok _, .error e => .error e

/-- The function method: combines the base flow field with the wake using
the fractional norm with the per-call exponent norm_order[turbnum].  The
method assigns no attribute, so the returned post state is the incoming
state. -/
noncomputable def FractionalNorm.function (self : FractionalNorm)
    (u_field u_wake : FlowField) (turbnum : Option ℤ) :
    Except PyErr (FlowField × FractionalNorm) :=
  match effExponent self turbnum with
  | .error e => .error e
  | .ok (.scalar q) =>
    .ok (zipWith2d (fun b w => fracnormElt (q : ℝ) b w) u_field u_wake, self)
  | .ok (.arr qs) =>
    match combineRows qs u_field u_wake with
    | .error e => .error e
    | .ok rows => .ok (rows, self)

/-- A concrete constructed instance with a one-turbine exponent array. -/
def fn1 : FractionalNorm := ⟨"fracnorm", some (.npArray [1]), some (.pyFloat 1)⟩

/-- The three-by-three field of ones from the shape scenario of the spec. -/
def ones33 : FlowField := [[1, 1, 1], [1, 1, 1], [1, 1, 1]]

/-- An instance holding a two-turbine exponent array: the state the
norm_order setter leaves behind (the array is stored even though the
deviation check then raises, see C10), and also what the commented-out
type check of the source suggests norm_order was meant to hold. -/
def fnB : FractionalNorm :=
  ⟨"fracnorm", some (.npArray [onePointFive, 2]), some (.pyFloat 1)⟩

/-- A three-by-one field of ones. -/
def ones31 : FlowField := [[1], [1], [1]]

/-- The row that broadcasting a length-one row of ones against the
two-element exponent array of fnB produces: two columns, one per
exponent. -/
noncomputable def broadcastRowB : List ℝ :=
  [fracnormElt ((onePointFive : ℚ) : ℝ) 1 1, fracnormElt ((2 : ℚ) : ℝ) 1 1]

lemma sameShape_length {u v : FlowField} (h : sameShape u v) :
    u.length = v.length := by
  have h2 := congrArg List.length h
  simpa using h2

lemma sameShape_row {u v : FlowField} (h : sameShape u v) (i : ℕ)
    (hi : i < u.length) (hi2 : i < v.length) : u[i].length = v[i].length := by
  have hb1 : i < (u.map List.length).length := by simpa using hi
  have h2 := List.getElem_of_eq h hb1
  simpa using h2

lemma map_length_zipWith2d (f : ℝ → ℝ → ℝ) :
    ∀ u v : FlowField, sameShape u v →
      (zipWith2d f u v).map List.length = u.map List.length
  | [], _, _ => rfl
  | _ :: _, [], h => by simp [sameShape] at h
  | a :: us, b :: vs, h => by
    simp only [sameShape, List.map_cons, List.cons.injEq] at h
    have ih := map_length_zipWith2d f us vs h.2
    show (List.zipWith f a b).length :: (zipWith2d f us vs).map List.length
        = a.length :: us.map List.length
    rw [List.length_zipWith, h.1, Nat.min_self, ih]

lemma zipWith2d_getElem (f : ℝ → ℝ → ℝ) (u v : FlowField) (i j : ℕ)
    (hi : i < u.length) (hi2 : i < v.length)
    (hj : j < u[i].length) (hj2 : j < v[i].length) :
    ((zipWith2d f u v)[i]!)[j]! = f u[i][j] v[i][j] := by
  have hlen : i < (zipWith2d f u v).length := by
    simp only [zipWith2d, List.length_zipWith]
    omega
  rw [getElem!_pos (zipWith2d f u v) i hlen]
  have hzw : (zipWith2d f u v)[i] = List.zipWith f u[i] v[i] :=
    List.getElem_zipWith ..
  rw [hzw]
  have hj3 : j < (List.zipWith f u[i] v[i]).length := by
    rw [List.length_zipWith]
    omega
  rw [getElem!_pos (List.zipWith f u[i] v[i]) j hj3]
  exact List.getElem_zipWith ..

lemma fracnormElt_symm (p b w : ℝ) : fracnormElt p b w = fracnormElt p w b := by
  unfold fracnormElt
  rw [add_comm]

lemma zipWith2d_comm (f : ℝ → ℝ → ℝ) (hf : ∀ a b, f a b = f b a)
    (u v : FlowField) : zipWith2d f u v = zipWith2d f v u :=
  List.zipWith_comm_of_comm _ (fun r s => List.zipWith_comm_of_comm f hf r s) u v

lemma bcompat_comm (a b : ℕ) : bcompat a b ↔ bcompat b a := by
  unfold bcompat
  omega

lemma bwidth_comm_of_compat {a b : ℕ} (h : bcompat a b) :
    bwidth a b = bwidth b a := by
  unfold bcompat at h
  unfold bwidth
  split <;> split <;> omega

lemma rowCombine_comm (ps : List ℚ) (ru rv : List ℝ) :
    rowCombine ps ru rv = rowCombine ps rv ru := by
  unfold rowCombine
  by_cases h : bcompat rv.length ps.length ∧ bcompat ru.length ps.length ∧
      bcompat (bwidth rv.length ps.length) (bwidth ru.length ps.length)
  · have h2 : bcompat ru.length ps.length ∧ bcompat rv.length ps.length ∧
        bcompat (bwidth ru.length ps.length) (bwidth rv.length ps.length) :=
      ⟨h.2.1, h.1, (bcompat_comm ..).mp h.2.2⟩
    rw [if_pos h, if_pos h2, bwidth_comm_of_compat h.2.2]
    exact congrArg Except.ok
      (List.map_congr_left fun j _ => fracnormElt_symm ..)
  · rw [if_neg h,
      if_neg (fun hc => h ⟨hc.2.1, hc.1, (bcompat_comm ..).mp hc.2.2⟩)]

lemma combineRows_comm (ps : List ℚ) :
    ∀ u v : FlowField, combineRows ps u v = combineRows ps v u
  | [], [] => rfl
  | [], _ :: _ => rfl
  | _ :: _, [] => rfl
  | ru :: us, rv :: vs => by
    simp only [combineRows]
    rw [rowCombine_comm, combineRows_comm ps us vs]

/-- Claim C5: constructing with an empty configuration mapping succeeds
silently and yields the documented defaults, norm_order 1.5 (the rational
three halves) and wake_weight 1.0. -/
theorem C5_empty_config_defaults :
    FractionalNorm.init [] =
      ⟨⟨"fracnorm", some (.pyFloat onePointFive), some (.pyFloat 1)⟩, .ok (), []⟩ :=
  rfl

/-- Claim C2 (code bug evaluation): a strategy constructed with the scalar
configuration norm_order equal to 2 constructs fine, but calling the
function method on two three-by-three fields of ones raises TypeError,
because the method subscripts the scalar; it does not return the field of
square roots of two that the spec scenario describes. -/
theorem C2_scalar_norm_order_typeerror :
    (FractionalNorm.init [("norm_order", .pyInt 2)]).exc = .ok () ∧
    (FractionalNorm.init [("norm_order", .pyInt 2)]).state._norm_order =
      some (.pyInt 2) ∧
    ((FractionalNorm.init [("norm_order", .pyInt 2)]).state.function
        ones33 ones33 none) = .error .typeError :=
  ⟨rfl, rfl, rfl⟩

/-- Claim C3: the norm_order setter performs no type validation: every
value of every type is stored (the assignment precedes the deviation
check), every non-array value is accepted without exception, and the
diagnostic is exactly the outcome of the default-deviation check. -/
theorem C3_norm_order_stores_any_type (self : FractionalNorm) (v : PyVal) :
    (norm_order_setter self v).state = { self with _norm_order := some v } ∧
    ((∀ xs, v ≠ .npArray xs) → (norm_order_setter self v).exc = .ok ()) ∧
    (truthy (pyNeFloat v onePointFive) = .ok true →
      (norm_order_setter self v).logs = [.advisory]) ∧
    (truthy (pyNeFloat v onePointFive) ≠ .ok true →
      (norm_order_setter self v).logs = []) := by
  refine ⟨?_, ?_, ?_, ?_⟩
  · unfold norm_order_setter
    rcases truthy (pyNeFloat v onePointFive) with e | b
    · rfl
    · cases b <;> rfl
  · intro hv
    unfold norm_order_setter
    rcases ht : truthy (pyNeFloat v onePointFive) with e | b
    · exfalso
      rcases v with x | n | s | xs | _
      · simp [pyNeFloat, truthy] at ht
      · simp [pyNeFloat, truthy] at ht
      · simp [pyNeFloat, truthy] at ht
      · exact hv xs rfl
      · simp [pyNeFloat, truthy] at ht
    · cases b <;> rfl
  · intro ht
    unfold norm_order_setter
    rw [ht]
  · intro ht
    unfold norm_order_setter
    rcases h2 : truthy (pyNeFloat v onePointFive) with e | b
    · rfl
    · cases b
      · rfl
      · exact absurd h2 ht

/-- Witness for C3 at a string value: it is stored, accepted, and reported
as deviating from the tuned default. -/
theorem C3_witness :
    (norm_order_setter fn1 (.pyStr ("fast"))).state =
      { fn1 with _norm_order := some (.pyStr ("fast")) } ∧
    (norm_order_setter fn1 (.pyStr ("fast"))).exc = .ok () ∧
    (norm_order_setter fn1 (.pyStr ("fast"))).logs = [.advisory] :=
  ⟨(C3_norm_order_stores_any_type fn1 (.pyStr ("fast"))).1,
   (C3_norm_order_stores_any_type fn1 (.pyStr ("fast"))).2.1 (fun _ h => nomatch h),
   (C3_norm_order_stores_any_type fn1 (.pyStr ("fast"))).2.2.1 rfl⟩

/-- Claim C4: the wake_weight setter rejects every non-float value with
ValueError (after reporting to the logger), leaving the stored parameters
untouched, and accepts every float value. -/
theorem C4_wake_weight_type_validation (self : FractionalNorm) (v : PyVal) :
    ((∀ x : ℚ, v ≠ .pyFloat x) →
      (wake_weight_setter self v).exc = .error .valueError ∧
      (wake_weight_setter self v).state = self ∧
      (wake_weight_setter self v).logs = [.errorReport]) ∧
    (∀ x : ℚ, v = .pyFloat x →
      (wake_weight_setter self v).exc = .ok () ∧
      (wake_weight_setter self v).state._wake_weight = some (.pyFloat x)) := by
  constructor
  · intro hv
    rcases v with x | n | s | xs | _
    · exact absurd rfl (hv x)
    all_goals exact ⟨rfl, rfl, rfl⟩
  · rintro x rfl
    simp only [wake_weight_setter, pyNeFloat, truthy]
    rcases Bool.eq_false_or_eq_true (decide (x ≠ 1)) with hx | hx <;>
      rw [hx] <;> exact ⟨rfl, rfl⟩

/-- Witness for C4: the string value fast is rejected and the instance
left untouched; the float value 2.0 is accepted and stored. -/
theorem C4_witness :
    ((wake_weight_setter fn1 (.pyStr ("fast"))).exc = .error .valueError ∧
      (wake_weight_setter fn1 (.pyStr ("fast"))).state = fn1 ∧
      (wake_weight_setter fn1 (.pyStr ("fast"))).logs = [.errorReport]) ∧
    ((wake_weight_setter fn1 (.pyFloat 2)).exc = .ok () ∧
      (wake_weight_setter fn1 (.pyFloat 2)).state._wake_weight =
        some (.pyFloat 2)) :=
  ⟨(C4_wake_weight_type_validation fn1 (.pyStr ("fast"))).1 (fun _ h => nomatch h),
   (C4_wake_weight_type_validation fn1 (.pyFloat 2)).2 2 rfl⟩

/-- Claim C8: a successful wake_weight write of a float different from the
tuned default 1.0 emits exactly one advisory diagnostic, a write of the
default emits none, the deviation never changes what a later combine call
computes, and the advisory construction scenario with wake_weight 2.0
succeeds with exactly one advisory. -/
theorem C8_wake_weight_advisory (self : FractionalNorm) (x : ℚ) :
    (x ≠ 1 → wake_weight_setter self (.pyFloat x) =
      ⟨{ self with _wake_weight := some (.pyFloat x) }, .ok (), [.advisory]⟩) ∧
    (x = 1 → wake_weight_setter self (.pyFloat x) =
      ⟨{ self with _wake_weight := some (.pyFloat x) }, .ok (), []⟩) ∧
    (∀ (u v : FlowField) (t : Option ℤ),
      ((wake_weight_setter self (.pyFloat x)).state.function u v t).map Prod.fst =
        (self.function u v t).map Prod.fst) ∧
    FractionalNorm.init [("wake_weight", .pyFloat 2)] =
      ⟨⟨"fracnorm", some (.pyFloat onePointFive), some (.pyFloat 2)⟩,
        .ok (), [.advisory]⟩ := by
  refine ⟨?_, ?_, ?_, rfl⟩
  · intro hx
    simp only [wake_weight_setter, pyNeFloat, truthy]
    rw [decide_eq_true hx]
  · rintro rfl
    rfl
  · intro u v t
    have hst : (wake_weight_setter self (.pyFloat x)).state =
        { self with _wake_weight := some (.pyFloat x) } := by
      simp only [wake_weight_setter, pyNeFloat, truthy]
      rcases Bool.eq_false_or_eq_true (decide (x ≠ 1)) with hx | hx <;> rw [hx]
    rw [hst]
    show (FractionalNorm.function ⟨self.model_string, self._norm_order,
        some (.pyFloat x)⟩ u v t).map Prod.fst =
      (self.function u v t).map Prod.fst
    unfold FractionalNorm.function
    have hee : effExponent ⟨self.model_string, self._norm_order,
        some (.pyFloat x)⟩ t = effExponent self t := rfl
    rw [hee]
    rcases effExponent self t with e | ne
    · rfl
    · rcases ne with q | qs
      · rfl
      · dsimp only
        rcases combineRows qs u v with e2 | rows
        · rfl
        · rfl

/-- Witness for C8: writing 2.0 stores it with exactly one advisory. -/
theorem C8_witness :
    wake_weight_setter fn1 (.pyFloat 2) =
      ⟨{ fn1 with _wake_weight := some (.pyFloat 2) }, .ok (), [.advisory]⟩ :=
  (C8_wake_weight_advisory fn1 2).1 (by decide)

/-- Claim C10: writing norm_order with a numpy array of two or more
elements stores the array and then raises ValueError from the truthiness
test of the deviation check, before any diagnostic is emitted; hence a
per-turbine configuration supplied as such an array fails at
construction, with the value already stored. -/
theorem C10_multi_element_norm_order_raises (self : FractionalNorm)
    (xs : List ℚ) (h : 2 ≤ xs.length) :
    norm_order_setter self (.npArray xs) =
      ⟨{ self with _norm_order := some (.npArray xs) }, .error .valueError, []⟩ ∧
    (FractionalNorm.init [("norm_order", .npArray xs)]).exc =
      .error .valueError ∧
    (FractionalNorm.init [("norm_order", .npArray xs)]).state._norm_order =
      some (.npArray xs) ∧
    (FractionalNorm.init [("norm_order", .npArray xs)]).logs = [] := by
  rcases xs with _ | ⟨a, _ | ⟨b, ys⟩⟩
  · simp at h
  · simp at h
  · exact ⟨rfl, rfl, rfl, rfl⟩

/-- Witness for C10 at the two-element array. -/
theorem C10_witness :
    norm_order_setter fn1 (.npArray [1, 2]) =
      ⟨{ fn1 with _norm_order := some (.npArray [1, 2]) },
        .error .valueError, []⟩ ∧
    (FractionalNorm.init [("norm_order", .npArray [1, 2])]).exc =
      .error .valueError ∧
    (FractionalNorm.init [("norm_order", .npArray [1, 2])]).state._norm_order =
      some (.npArray [1, 2]) ∧
    (FractionalNorm.init [("norm_order", .npArray [1, 2])]).logs = [] :=
  C10_multi_element_norm_order_raises fn1 [1, 2] (by decide)

/-- Claim C6: the function method is commutative in its two field
arguments: swapping the base and wake fields yields the identical result,
whatever the stored exponent, since the formula is symmetric. -/
theorem C6_combine_commutative (self : FractionalNorm) (u v : FlowField)
    (t : Option ℤ) : self.function u v t = self.function v u t := by
  unfold FractionalNorm.function
  rcases effExponent self t with e | ne
  · rfl
  · rcases ne with q | qs
    · dsimp only
      rw [zipWith2d_comm _ (fun a b => fracnormElt_symm _ a b) u v]
    · dsimp only
      rw [combineRows_comm qs u v]

/-- Claim C7: when the effective norm order of the call is the scalar 1,
the function method returns the elementwise sum of the two fields (linear
superposition), exactly. -/
theorem C7_norm_order_one_linear (self : FractionalNorm) (u v : FlowField)
    (t : Option ℤ) (h : effExponent self t = .ok (.scalar 1)) :
    self.function u v t = .ok (zipWith2d (fun b w => b + w) u v, self) := by
  unfold FractionalNorm.function
  rw [h]
  dsimp only
  have hfun : (fun b w : ℝ => fracnormElt ((1 : ℚ) : ℝ) b w) =
      fun b w : ℝ => b + w := by
    funext b w
    unfold fracnormElt
    rw [Rat.cast_one, Real.rpow_one, Real.rpow_one, one_div_one, Real.rpow_one]
    exact add_comm w b
  rw [hfun]

/-- Witness for C7 at the one-turbine instance with exponent array [1]. -/
theorem C7_witness :
    fn1.function [[1]] [[1]] (some 0) =
      .ok (zipWith2d (fun b w => b + w) [[1]] [[1]], fn1) :=
  C7_norm_order_one_linear fn1 [[1]] [[1]] (some 0) rfl

/-- Counterexample to claim C9 as stated: with the two-turbine exponent
array stored and no turbine index, the function call on two shape-matched
three-by-one fields of ones succeeds and returns a three-by-two field
(each length-one row broadcasts against the two exponents), so the result
does not have the shape of the inputs. -/
theorem C9_counterexample :
    fnB.function ones31 ones31 none =
      .ok ([broadcastRowB, broadcastRowB, broadcastRowB], fnB) ∧
    ([broadcastRowB, broadcastRowB, broadcastRowB] : FlowField).map List.length
      = [2, 2, 2] ∧
    ones31.map List.length = [1, 1, 1] ∧
    ([broadcastRowB, broadcastRowB, broadcastRowB] : FlowField).map List.length
      ≠ ones31.map List.length :=
  ⟨rfl, rfl, rfl, by decide⟩

/-- Claim C9, amended: a successful function call leaves the instance
state (its model_string and both stored parameters) unchanged; and when
the effective exponent of the call is a scalar (in particular whenever
the per-turbine array is subscripted by a turbine index), the returned
fresh field has the same shape as the shape-matched inputs.  The shape
clause cannot be unconditional: a stored multi-element exponent array
combined with turbine index None broadcasts length-one rows to the width
of the array (see the counterexample). -/
theorem C9_pure_and_scalar_shape (self : FractionalNorm) (u v : FlowField)
    (t : Option ℤ) (r : FlowField) (s2 : FractionalNorm) (hsh : sameShape u v)
    (h : self.function u v t = .ok (r, s2)) :
    s2 = self ∧
    ∀ q : ℚ, effExponent self t = .ok (.scalar q) →
      r.map List.length = u.map List.length := by
  unfold FractionalNorm.function at h
  rcases hee : effExponent self t with e | ne <;> rw [hee] at h
  · cases h
  · rcases ne with q0 | qs
    · dsimp only at h
      rw [Except.ok.injEq, Prod.mk.injEq] at h
      refine ⟨h.2.symm, ?_⟩
      intro q _
      exact h.1 ▸ map_length_zipWith2d _ u v hsh
    · dsimp only at h
      rcases hc : combineRows qs u v with e2 | rows <;> rw [hc] at h
      · cases h
      · rw [Except.ok.injEq, Prod.mk.injEq] at h
        refine ⟨h.2.symm, ?_⟩
        intro q hq
        simp at hq

/-- Witness for the amended C9 at a concrete one-by-one field with a
scalar effective exponent. -/
theorem C9_witness :
    fn1 = fn1 ∧
    ([[fracnormElt ((1 : ℚ) : ℝ) 1 1]] : FlowField).map List.length =
      ([[1]] : FlowField).map List.length :=
  ⟨(C9_pure_and_scalar_shape fn1 [[1]] [[1]] (some 0)
      [[fracnormElt ((1 : ℚ) : ℝ) 1 1]] fn1 rfl rfl).1,
   (C9_pure_and_scalar_shape fn1 [[1]] [[1]] (some 0)
      [[fracnormElt ((1 : ℚ) : ℝ) 1 1]] fn1 rfl rfl).2 1 rfl⟩

lemma getItem_npArray_nat (xs : List ℚ) (t : ℕ) (ht : t < xs.length) :
    getItem (.npArray xs) (some (t : ℤ)) = .ok (.pyFloat (xs.get ⟨t, ht⟩)) := by
  have h0 : ¬ ((t : ℤ) < 0) := by omega
  simp only [getItem, h0, if_false]
  rw [dif_pos (⟨by omega, by simpa using ht⟩ :
    0 ≤ (t : ℤ) ∧ (t : ℤ).toNat < xs.length)]
  have hfin : (⟨(t : ℤ).toNat, by simpa using ht⟩ : Fin xs.length) = ⟨t, ht⟩ :=
    Fin.ext (show (t : ℤ).toNat = t by omega)
  rw [hfin]

/-- Claim C1: with a per-turbine exponent array stored as norm_order and a
turbine index t inside it, the function method succeeds on shape-matched
fields and returns the field of the same shape whose entries are
elementwise (wake ^ p + base ^ p) ^ (1 / p) with p the indexed exponent. -/
theorem C1_combine_per_turbine_formula (self : FractionalNorm) (xs : List ℚ)
    (t : ℕ) (u v : FlowField) (hno : self._norm_order = some (.npArray xs))
    (ht : t < xs.length) (hsh : sameShape u v) :
    ∃ w : FlowField,
      self.function u v (some (t : ℤ)) = .ok (w, self) ∧
      w.map List.length = u.map List.length ∧
      ∀ (i j : ℕ) (hi : i < u.length) (hj : j < u[i].length),
        (w[i]!)[j]! =
          ((v[i]!)[j]! ^ ((xs.get ⟨t, ht⟩ : ℚ) : ℝ)
            + u[i][j] ^ ((xs.get ⟨t, ht⟩ : ℚ) : ℝ))
            ^ (1 / ((xs.get ⟨t, ht⟩ : ℚ) : ℝ)) := by
  have hee : effExponent self (some (t : ℤ)) = .ok (.scalar (xs.get ⟨t, ht⟩)) := by
    unfold effExponent FractionalNorm.norm_order
    rw [hno]
    dsimp only
    rw [getItem_npArray_nat xs t ht]
    rfl
  refine ⟨zipWith2d (fun b w =>
    fracnormElt ((xs.get ⟨t, ht⟩ : ℚ) : ℝ) b w) u v, ?_, ?_, ?_⟩
  · simp only [FractionalNorm.function, hee]
  · exact map_length_zipWith2d _ u v hsh
  · intro i j hi hj
    have hi2 : i < v.length := by
      rw [← sameShape_length hsh]
      exact hi
    have hj2 : j < v[i].length := by
      rw [← sameShape_row hsh i hi hi2]
      exact hj
    rw [zipWith2d_getElem _ u v i j hi hi2 hj hj2]
    rw [getElem!_pos v i hi2, getElem!_pos (v[i]) j hj2]
    rfl

/-- Witness for C1 at the one-turbine instance, index zero and a concrete
one-by-one pair of fields. -/
theorem C1_witness :
    ∃ w : FlowField,
      fn1.function [[1]] [[1]] (some ((0 : ℕ) : ℤ)) = .ok (w, fn1) ∧
      w.map List.length = ([[1]] : FlowField).map List.length ∧
      ∀ (i j : ℕ) (hi : i < ([[1]] : FlowField).length)
        (hj : j < ([[1]] : FlowField)[i].length),
        (w[i]!)[j]! =
          ((([[1]] : FlowField)[i]!)[j]! ^ ((([1] : List ℚ).get ⟨0, by decide⟩ : ℚ) : ℝ)
            + ([[1]] : FlowField)[i][j] ^ ((([1] : List ℚ).get ⟨0, by decide⟩ : ℚ) : ℝ))
            ^ (1 / ((([1] : List ℚ).get ⟨0, by decide⟩ : ℚ) : ℝ)) :=
  C1_combine_per_turbine_formula fn1 [1] 0 [[1]] [[1]] rfl (by decide) rfl
